import Mathlib

/-!
Verification of the 3D book-cover renderer (`renderer.py`, class
`BookCoverRenderer`).

Modelling conventions used throughout this file:
* floating-point arithmetic of the source is modelled over `ℝ`;
* NumPy/OpenCV images are modelled as `Img` (dimensions, channel count and a
  total pixel function `pix y x c`);
* Python's `int(...)` cast of a float (truncation toward zero) is `truncInt`;
* fallible Python code (exceptions) is modelled with `Except RenderError`.
-/

namespace Cover3d

/-- Python / NumPy `int(r)` applied to a float: truncation toward zero. -/
noncomputable def truncInt (r : ℝ) : ℤ := if 0 ≤ r then ⌊r⌋ else ⌈r⌉

/-- A raster image: height, width, channel count, and pixel values
`pix y x c` (8-bit channel values modelled over `ℝ`). -/
structure Img where
  height : ℕ
  width : ℕ
  channels : ℕ
  pix : ℕ → ℕ → ℕ → ℝ

/-- Equality of the observable part of two images: equal dimensions and
channel count, and equal pixel values at every in-bounds coordinate. -/
def ImgEq (a b : Img) : Prop :=
  a.height = b.height ∧ a.width = b.width ∧ a.channels = b.channels ∧
    ∀ y x c, y < a.height → x < a.width → c < a.channels → a.pix y x c = b.pix y x c

/-- `self.display_ppmm = 96 / 25.4` (renderer.py line 14). -/
noncomputable def displayPpmm : ℝ := 96 / 25.4

/-- `np.radians` (degrees to radians, renderer.py lines 430-431). -/
noncomputable def radians (a : ℝ) : ℝ := a * Real.pi / 180

/-- Source coordinate sampled for destination index `i` when resizing an axis
of `src` pixels down/up to `dst` pixels (OpenCV `INTER_LINEAR` convention). -/
noncomputable def srcCoord (src dst i : ℕ) : ℝ := ((i : ℝ) + 1 / 2) * src / dst - 1 / 2

/-- Clamp an integer sample index into the valid range `[0, n-1]`. -/
def clampIdx (n : ℕ) (k : ℤ) : ℕ := (min (max k 0) ((n : ℤ) - 1)).toNat

/-- Fractional part of the sampled source coordinate. -/
noncomputable def interpWeight (src dst i : ℕ) : ℝ :=
  srcCoord src dst i - ⌊srcCoord src dst i⌋

/-- Lower sample index (clamped floor of the source coordinate). -/
noncomputable def sampleLo (src dst i : ℕ) : ℕ := clampIdx src ⌊srcCoord src dst i⌋

/-- Upper sample index (clamped floor + 1). -/
noncomputable def sampleHi (src dst i : ℕ) : ℕ := clampIdx src (⌊srcCoord src dst i⌋ + 1)

/-- Model of `cv2.resize(img, (newW, newH))` with the default bilinear
interpolation (`INTER_LINEAR`), applied channel-wise. -/
noncomputable def resizeLinear (img : Img) (newW newH : ℕ) : Img where
  height := newH
  width := newW
  channels := img.channels
  pix := fun y x c =>
    (1 - interpWeight img.height newH y) * (1 - interpWeight img.width newW x) *
        img.pix (sampleLo img.height newH y) (sampleLo img.width newW x) c +
      (1 - interpWeight img.height newH y) * interpWeight img.width newW x *
        img.pix (sampleLo img.height newH y) (sampleHi img.width newW x) c +
      interpWeight img.height newH y * (1 - interpWeight img.width newW x) *
        img.pix (sampleHi img.height newH y) (sampleLo img.width newW x) c +
      interpWeight img.height newH y * interpWeight img.width newW x *
        img.pix (sampleHi img.height newH y) (sampleHi img.width newW x) c

/-- The parameter record built by `_calculate_transform_params`
(renderer.py lines 416-449). -/
structure TransformParams where
  cover_height : ℝ
  camera_height : ℝ
  camera_height_complement : ℝ
  angle_rad : ℝ
  spine_angle_rad : ℝ
  display_cover_width : ℝ
  offset_y_bottom : ℝ
  offset_y_top : ℝ

/-- The arithmetic of `_calculate_transform_params` (renderer.py lines
422-449): `origW`/`origH` are the cover's pixel dimensions, `camHFrac` is the
camera height fraction parameter, `bd` the book distance. -/
noncomputable def mkTransformParams (origW origH : ℕ) (cover_width persp spread camHFrac bd : ℝ) :
    TransformParams :=
  let cover_height := displayPpmm * cover_width / origW * origH
  let camera_height := cover_height * camHFrac
  let angle_rad := radians persp
  { cover_height := cover_height
    camera_height := camera_height
    camera_height_complement := cover_height - camera_height
    angle_rad := angle_rad
    spine_angle_rad := radians (persp + spread)
    display_cover_width := displayPpmm * cover_width * Real.cos angle_rad
    offset_y_bottom := camera_height * cover_width * Real.sin angle_rad /
      (bd + cover_width * Real.sin angle_rad)
    offset_y_top := (cover_height - camera_height) * cover_width * Real.sin angle_rad /
      (bd + cover_width * Real.sin angle_rad) }

lemma displayPpmm_pos : 0 < displayPpmm := by norm_num [displayPpmm]

lemma radians_lt_radians {a b : ℝ} (h : a < b) : radians a < radians b := by
  unfold radians
  have hpi := Real.pi_pos
  have : a * Real.pi < b * Real.pi := mul_lt_mul_of_pos_right h hpi
  linarith

/-- C8: with positive `cover_width` and `book_distance` fixed, the computed
display cover width equals `density · cover_width · cos(perspective_angle)`
and is strictly decreasing in the perspective angle over `(0°, 90°)`. -/
theorem displayCoverWidth_formula_strictAnti (origW origH : ℕ) (cw bd spread camHFrac : ℝ)
    (hcw : 0 < cw) (hbd : 0 < bd) (a₁ a₂ : ℝ)
    (h₁ : 0 < a₁) (h₁₂ : a₁ < a₂) (h₂ : a₂ < 90) :
    (mkTransformParams origW origH cw a₁ spread camHFrac bd).display_cover_width =
      displayPpmm * cw * Real.cos (radians a₁) ∧
    (mkTransformParams origW origH cw a₂ spread camHFrac bd).display_cover_width <
      (mkTransformParams origW origH cw a₁ spread camHFrac bd).display_cover_width := by
  constructor
  · rfl
  · show displayPpmm * cw * Real.cos (radians a₂) < displayPpmm * cw * Real.cos (radians a₁)
    have hpi := Real.pi_pos
    have hr1 : 0 ≤ radians a₁ := by
      unfold radians
      positivity
    have hr2 : radians a₂ ≤ Real.pi := by
      unfold radians
      rw [div_le_iff₀ (by norm_num)]
      nlinarith [Real.pi_pos]
    have hlt : radians a₁ < radians a₂ := radians_lt_radians h₁₂
    have hcos : Real.cos (radians a₂) < Real.cos (radians a₁) :=
      Real.cos_lt_cos_of_nonneg_of_le_pi hr1 hr2 hlt
    have hpos : 0 < displayPpmm * cw := mul_pos displayPpmm_pos hcw
    exact mul_lt_mul_of_pos_left hcos hpos

/-- C8 witness: instantiation of `displayCoverWidth_formula_strictAnti` at
angles 30° and 60°. -/
theorem displayCoverWidth_formula_strictAnti_witness :
    (mkTransformParams 1 1 1 60 0 0 1).display_cover_width <
      (mkTransformParams 1 1 1 30 0 0 1).display_cover_width :=
  (displayCoverWidth_formula_strictAnti 1 1 1 1 0 0 (by norm_num) (by norm_num)
    30 60 (by norm_num) (by norm_num) (by norm_num)).2

/-- Swap of channels 0 and 2: `cv2.cvtColor` with `COLOR_RGB2BGR` or
`COLOR_BGR2RGB` (both are the same channel swap). -/
def bgr2rgb (img : Img) : Img :=
  { img with pix := fun y x c =>
      if c = 0 then img.pix y x 2 else if c = 2 then img.pix y x 0 else img.pix y x c }

/-- `_overlay_shadow` (renderer.py lines 250-283): resize the shadow image to
the original's dimensions, then blend it over the original using the shadow's
alpha channel if it has one, else `cv2.addWeighted(original, 1.0, shadow,
0.5, 0)`. -/
noncomputable def overlayShadow (original shadow : Img) : Img :=
  let resized := resizeLinear shadow original.width original.height
  if resized.channels = 4 then
    { height := original.height, width := original.width, channels := original.channels,
      pix := fun y x c =>
        if c < 3 then
          (1 - resized.pix y x 3 / 255) * original.pix y x c +
            resized.pix y x 3 / 255 * resized.pix y x c
        else original.pix y x c }
  else
    { height := original.height, width := original.width, channels := original.channels,
      pix := fun y x c => original.pix y x c + 0.5 * resized.pix y x c }

/-- The static shadow-mode-to-asset table of `_apply_shadow_to_spines`
(renderer.py lines 346-349); `none` means the mode is outside the table. -/
def shadowMapping (mode : String) : Option String :=
  if mode = "线性" then some "shadows/linear.png"
  else if mode = "反射" then some "shadows/reflect.png"
  else none

/-- `_apply_shadow_to_spines` (renderer.py lines 327-384). `loadAsset` models
`cv2.imread` on the shadow asset path: `none` when the file is missing or
unreadable (in the source that produces `None` or an exception, both of which
return the input spines unchanged). -/
noncomputable def applyShadowToSpines (loadAsset : String → Option Img)
    (spines : List Img) (mode : String) : List Img :=
  if spines.isEmpty ∨ mode = "无" then spines
  else
    match shadowMapping mode with
    | none => spines
    | some path =>
      match loadAsset path with
      | none => spines
      | some sh => spines.map (fun sp => bgr2rgb (overlayShadow (bgr2rgb sp) sh))

/-- C3: the shadow step fails open — mode `无` (none), a mode outside the
static table, or a missing/unreadable asset all leave the spine list
pixel-for-pixel unchanged; the embedding is a total function, so no exception
escapes. -/
theorem applyShadowToSpines_failOpen (loadAsset : String → Option Img)
    (spines : List Img) (mode : String)
    (h : mode = "无" ∨ shadowMapping mode = none ∨
      ∀ p, shadowMapping mode = some p → loadAsset p = none) :
    applyShadowToSpines loadAsset spines mode = spines := by
  unfold applyShadowToSpines
  by_cases hempty : spines.isEmpty ∨ mode = "无"
  · rw [if_pos hempty]
  · rw [if_neg hempty]
    push_neg at hempty
    rcases h with h | h | h
    · exact absurd h hempty.2
    · rw [h]
    · cases hm : shadowMapping mode with
      | none => rfl
      | some p =>
        have hl := h p hm
        simp [hl]

/-- Demonstration image used by closed witness statements. -/
def demoImg : Img := ⟨2, 2, 3, fun _ _ _ => 7⟩

/-- C3 witness: a recognized mode whose asset fails to load leaves the spines
unchanged. -/
theorem applyShadowToSpines_failOpen_witness :
    applyShadowToSpines (fun _ => none) [demoImg] "线性" = [demoImg] :=
  applyShadowToSpines_failOpen (fun _ => none) [demoImg] "线性"
    (Or.inr (Or.inr (fun _ _ => rfl)))

/-- `normalized_x = (w - x - 1) / w` (renderer.py line 93). -/
noncomputable def normalizedX (w x : ℕ) : ℝ := ((w : ℝ) - x - 1) / w

/-- The per-column quarter-ellipse offset before the integer conversion
(renderer.py lines 100 and 104). -/
noncomputable def colOffsetReal (o : ℝ) (w x : ℕ) : ℝ :=
  Real.sqrt ((1 - normalizedX w x ^ 2) * o ^ 2) - o

/-- The per-column quarter-ellipse offset actually used: zero unless the
offset parameter is positive, else the real offset truncated to an integer by
`astype(int)` (renderer.py lines 96-105). -/
noncomputable def colOffset (o : ℝ) (w x : ℕ) : ℤ :=
  if 0 < o then truncInt (colOffsetReal o w x) else 0

/-- Per-pixel vertical displacement of a column with integer top/bottom
offsets (renderer.py lines 116-122): linear interpolation between the top
offset (weight `1 - 2y/h`, upper half) and the negated bottom offset (weight
`2y/h - 1`, lower half), truncated to an integer. -/
noncomputable def pixDisp (top bot : ℤ) (h y : ℕ) : ℤ :=
  truncInt (if (y : ℝ) / h < 1 / 2 then (top : ℝ) * (1 - 2 * ((y : ℝ) / h))
            else -(bot : ℝ) * (2 * ((y : ℝ) / h) - 1))

/-- `new_y = y + offsets` (renderer.py line 125). -/
noncomputable def curlNewY (oT oB : ℝ) (w h x y : ℕ) : ℤ :=
  y + pixDisp (colOffset oT w x) (colOffset oB w x) h y

/-- The mask produced by `_process_spine_pixels_column` (renderer.py lines
128-138): true iff the remapped row is in bounds and the source mask is true
there. -/
noncomputable def processSpineMask (mask : ℕ → ℕ → Bool) (oT oB : ℝ) (w h : ℕ) :
    ℕ → ℕ → Bool :=
  fun y x =>
    let ny := curlNewY oT oB w h x y
    if 0 ≤ ny ∧ ny < (h : ℤ) then mask ny.toNat x else false

/-- The image produced by `_process_spine_pixels_column` (renderer.py lines
86-145): the source pixel at the remapped row where that row is in bounds and
carries content, and the background color everywhere else (the background
fill of lines 140-143 overwrites every position whose output mask is false). -/
noncomputable def processSpineImage (img : Img) (mask : ℕ → ℕ → Bool) (oT oB : ℝ)
    (w h : ℕ) (bg : ℕ → ℝ) : Img where
  height := h
  width := w
  channels := img.channels
  pix := fun y x c =>
    let ny := curlNewY oT oB w h x y
    if 0 ≤ ny ∧ ny < (h : ℤ) ∧ mask ny.toNat x then img.pix ny.toNat x c else bg c

lemma truncInt_zero : truncInt 0 = 0 := by simp [truncInt]

lemma normalizedX_nonneg {w x : ℕ} (hx : x < w) : 0 ≤ normalizedX w x := by
  unfold normalizedX
  have hw0 : 0 < w := Nat.lt_of_le_of_lt (Nat.zero_le x) hx
  have hw : (0 : ℝ) < w := by exact_mod_cast hw0
  apply div_nonneg _ hw.le
  have : (x : ℝ) + 1 ≤ w := by exact_mod_cast hx
  linarith

lemma normalizedX_le_one {w x : ℕ} (hx : x < w) : normalizedX w x ≤ 1 := by
  unfold normalizedX
  have hw0 : 0 < w := Nat.lt_of_le_of_lt (Nat.zero_le x) hx
  have hw : (0 : ℝ) < w := by exact_mod_cast hw0
  rw [div_le_one hw]
  have : (0 : ℝ) ≤ x := by positivity
  linarith

lemma one_sub_normalizedX_sq_nonneg {w x : ℕ} (hx : x < w) :
    0 ≤ 1 - normalizedX w x ^ 2 := by
  have h0 := normalizedX_nonneg hx
  have h1 := normalizedX_le_one hx
  nlinarith

lemma colOffsetReal_eq_formula {o : ℝ} (ho : 0 < o) {w x : ℕ} (hx : x < w) :
    colOffsetReal o w x = Real.sqrt (1 - normalizedX w x ^ 2) * o - o := by
  unfold colOffsetReal
  rw [Real.sqrt_mul (one_sub_normalizedX_sq_nonneg hx), Real.sqrt_sq ho.le]

lemma normalizedX_last {w : ℕ} (hw : 0 < w) : normalizedX w (w - 1) = 0 := by
  unfold normalizedX
  rw [Nat.cast_sub hw]
  push_cast
  ring_nf

lemma colOffset_last {w : ℕ} (hw : 0 < w) (o : ℝ) : colOffset o w (w - 1) = 0 := by
  unfold colOffset
  by_cases ho : 0 < o
  · rw [if_pos ho]
    have : colOffsetReal o w (w - 1) = 0 := by
      unfold colOffsetReal
      rw [normalizedX_last hw]
      have : (1 - (0 : ℝ) ^ 2) * o ^ 2 = o ^ 2 := by ring
      rw [this, Real.sqrt_sq ho.le]
      ring
    rw [this, truncInt_zero]
  · rw [if_neg ho]

lemma pixDisp_zero (h y : ℕ) : pixDisp 0 0 h y = 0 := by
  unfold pixDisp
  split
  · simpa using truncInt_zero
  · simpa using truncInt_zero

lemma curlNewY_last {w : ℕ} (hw : 0 < w) (oT oB : ℝ) (h y : ℕ) :
    curlNewY oT oB w h (w - 1) y = y := by
  unfold curlNewY
  rw [colOffset_last hw, colOffset_last hw, pixDisp_zero]
  ring

/-- C1: the spine curl processor assigns each column the quarter-ellipse
offsets `sqrt(1 - normalized_x²)·offset - offset` with
`normalized_x = (w - x - 1)/w`; the rightmost column is unperturbed; a
non-positive offset parameter yields an identically-zero offset function; each
pixel is remapped to `new_y = y + displacement` with the claimed linear
interpolation; and a destination pixel whose remapped row is out of bounds
keeps mask false and is filled with the background color. -/
theorem spineCurl_column_remap (w h : ℕ) (hw : 0 < w)
    (oT oB : ℝ) (img : Img) (mask : ℕ → ℕ → Bool) (bg : ℕ → ℝ) :
    (∀ x, x < w → 0 < oT →
      colOffsetReal oT w x = Real.sqrt (1 - normalizedX w x ^ 2) * oT - oT) ∧
    (∀ x, x < w → 0 < oB →
      colOffsetReal oB w x = Real.sqrt (1 - normalizedX w x ^ 2) * oB - oB) ∧
    (oT ≤ 0 → ∀ x, colOffset oT w x = 0) ∧
    (oB ≤ 0 → ∀ x, colOffset oB w x = 0) ∧
    (colOffset oT w (w - 1) = 0 ∧ colOffset oB w (w - 1) = 0 ∧
      ∀ y, curlNewY oT oB w h (w - 1) y = y) ∧
    (∀ x y, curlNewY oT oB w h x y =
      y + truncInt (if (y : ℝ) / h < 1 / 2
        then ((colOffset oT w x : ℝ)) * (1 - 2 * ((y : ℝ) / h))
        else -((colOffset oB w x : ℝ)) * (2 * ((y : ℝ) / h) - 1))) ∧
    (∀ x y, (curlNewY oT oB w h x y < 0 ∨ (h : ℤ) ≤ curlNewY oT oB w h x y) →
      processSpineMask mask oT oB w h y x = false ∧
      ∀ c, (processSpineImage img mask oT oB w h bg).pix y x c = bg c) := by
  refine ⟨?_, ?_, ?_, ?_, ⟨colOffset_last hw oT, colOffset_last hw oB,
    fun y => curlNewY_last hw oT oB h y⟩, ?_, ?_⟩
  · exact fun x hx ho => colOffsetReal_eq_formula ho hx
  · exact fun x hx ho => colOffsetReal_eq_formula ho hx
  · intro ho x
    unfold colOffset
    rw [if_neg (not_lt.mpr ho)]
  · intro ho x
    unfold colOffset
    rw [if_neg (not_lt.mpr ho)]
  · intro x y
    rfl
  · intro x y hy
    have hcond : ¬(0 ≤ curlNewY oT oB w h x y ∧ curlNewY oT oB w h x y < (h : ℤ)) := by
      rcases hy with hy | hy
      · exact fun hc => absurd hc.1 (not_le.mpr hy)
      · exact fun hc => absurd hc.2 (not_lt.mpr hy)
    constructor
    · unfold processSpineMask
      simp only [if_neg hcond]
    · intro c
      show (if 0 ≤ curlNewY oT oB w h x y ∧ curlNewY oT oB w h x y < (h : ℤ) ∧
        mask (curlNewY oT oB w h x y).toNat x then _ else bg c) = bg c
      rw [if_neg (fun hc => hcond ⟨hc.1, hc.2.1⟩)]

/-- C1 witness: instantiation at a 1×1 image with unit offsets — the
rightmost (only) column is unperturbed. -/
theorem spineCurl_column_remap_witness :
    colOffset (1 : ℝ) 1 (1 - 1) = 0 ∧ colOffset (1 : ℝ) 1 (1 - 1) = 0 ∧
      ∀ y, curlNewY 1 1 1 1 (1 - 1) y = y :=
  (spineCurl_column_remap 1 1 (by norm_num) 1 1 demoImg (fun _ _ => true)
    (fun _ => 0)).2.2.2.2.1

/-- Rectangle assignment `canvas[y0:y0+hh, x0:x0+ww] = sub` on a pixel grid,
modelled functionally (renderer.py lines 548-549). -/
def placeRect (canvas : ℕ → ℕ → ℕ → ℝ) (y0 x0 hh ww : ℕ) (sub : ℕ → ℕ → ℕ → ℝ) :
    ℕ → ℕ → ℕ → ℝ :=
  fun y x c =>
    if y0 ≤ y ∧ y < y0 + hh ∧ x0 ≤ x ∧ x < x0 + ww then sub (y - y0) (x - x0) c
    else canvas y x c

/-- Boolean-mask assignment `region[mask] = 255` on the slice
`alpha[y0:y0+hh, x0:x0+ww]` (renderer.py lines 576-582). -/
def maskSetRect (alpha : ℕ → ℕ → ℝ) (y0 x0 hh ww : ℕ) (mask : ℕ → ℕ → Bool) :
    ℕ → ℕ → ℝ :=
  fun y x =>
    if y0 ≤ y ∧ y < y0 + hh ∧ x0 ≤ x ∧ x < x0 + ww ∧ mask (y - y0) (x - x0) then 255
    else alpha y x

/-- Canvas composition of `_generate_3d_cover` (renderer.py lines 538-549 and
572-587): an RGB canvas filled with the background color, the warped cover
placed at columns `dsw..` and the spine at columns `..dsw` (both converted
BGR→RGB), and — when `bgAlpha < 255` — an extra alpha channel initialized to
`bgAlpha` and forced to 255 under each content mask. `dcw`, `ch`, `dsw`, `sh`
are the already-truncated display cover width, cover height, display spine
width and spine height. The cosmetic stroke branch (lines 551-570) is outside
the modelled scope. -/
noncomputable def composeCanvas (coverWarped : Img) (coverMask : ℕ → ℕ → Bool)
    (spineWarped : Img) (spineMask : ℕ → ℕ → Bool)
    (dcw ch dsw sh : ℕ) (bgRGB : ℕ → ℝ) (bgAlpha : ℕ) : Img :=
  let fw := dcw + dsw
  let fh := max ch sh
  let base : ℕ → ℕ → ℕ → ℝ := fun _ _ c => bgRGB c
  let withCover := placeRect base 0 dsw ch (fw - dsw) (bgr2rgb coverWarped).pix
  let withSpine := placeRect withCover 0 0 sh dsw (bgr2rgb spineWarped).pix
  if bgAlpha < 255 then
    let alpha0 : ℕ → ℕ → ℝ := fun _ _ => (bgAlpha : ℝ)
    let alpha1 := maskSetRect alpha0 0 dsw ch (fw - dsw) coverMask
    let alpha2 := maskSetRect alpha1 0 0 sh dsw spineMask
    { height := fh, width := fw, channels := 4,
      pix := fun y x c => if c = 3 then alpha2 y x else withSpine y x c }
  else
    { height := fh, width := fw, channels := 3, pix := withSpine }

/-- C2: `bg_alpha = 255` yields a 3-channel composed result; `bg_alpha < 255`
yields a 4-channel result whose alpha channel is `bg_alpha` everywhere except
255 at every canvas pixel covered by the cover content mask (offset by the
display spine width) or the spine content mask. -/
theorem composeCanvas_channels_alpha (coverWarped spineWarped : Img)
    (coverMask spineMask : ℕ → ℕ → Bool) (dcw ch dsw sh : ℕ)
    (bgRGB : ℕ → ℝ) (bgAlpha : ℕ) :
    (bgAlpha = 255 →
      (composeCanvas coverWarped coverMask spineWarped spineMask dcw ch dsw sh
        bgRGB bgAlpha).channels = 3) ∧
    (bgAlpha < 255 →
      (composeCanvas coverWarped coverMask spineWarped spineMask dcw ch dsw sh
        bgRGB bgAlpha).channels = 4 ∧
      ∀ y x, y < max ch sh → x < dcw + dsw →
        (composeCanvas coverWarped coverMask spineWarped spineMask dcw ch dsw sh
          bgRGB bgAlpha).pix y x 3 =
        if (y < ch ∧ dsw ≤ x ∧ coverMask y (x - dsw)) ∨
            (y < sh ∧ x < dsw ∧ spineMask y x) then 255
        else (bgAlpha : ℝ)) := by
  constructor
  · intro h255
    unfold composeCanvas
    rw [if_neg (by omega)]
  · intro hlt
    unfold composeCanvas
    rw [if_pos hlt]
    refine ⟨rfl, ?_⟩
    intro y x _hy hx
    show maskSetRect (maskSetRect (fun _ _ => (bgAlpha : ℝ)) 0 dsw ch
        (dcw + dsw - dsw) coverMask) 0 0 sh dsw spineMask y x = _
    unfold maskSetRect
    by_cases hs : y < sh ∧ x < dsw ∧ spineMask y x
    · rw [if_pos (by exact ⟨Nat.zero_le y, by omega, Nat.zero_le x, by omega,
        by simpa using hs.2.2⟩)]
      rw [if_pos (Or.inr hs)]
    · rw [if_neg (by
        intro hcon
        exact hs ⟨by omega, by omega, by simpa using hcon.2.2.2.2⟩)]
      by_cases hc : y < ch ∧ dsw ≤ x ∧ coverMask y (x - dsw)
      · rw [if_pos (by exact ⟨Nat.zero_le y, by omega, hc.2.1, by omega,
          by simpa using hc.2.2⟩)]
        rw [if_pos (Or.inl hc)]
      · rw [if_neg (by
          intro hcon
          exact hc ⟨by omega, hcon.2.2.1, by simpa using hcon.2.2.2.2⟩)]
        rw [if_neg (by
          intro hcon
          rcases hcon with hcon | hcon
          · exact hc hcon
          · exact hs hcon)]

/-- C2 witness: a translucent background produces a 4-channel composed image,
with alpha 255 under a content mask. -/
theorem composeCanvas_channels_alpha_witness :
    (composeCanvas demoImg (fun _ _ => true) demoImg (fun _ _ => true)
      2 2 2 2 (fun _ => 0) 100).channels = 4 ∧
    (composeCanvas demoImg (fun _ _ => true) demoImg (fun _ _ => true)
      2 2 2 2 (fun _ => 0) 100).pix 0 0 3 = 255 := by
  have h := (composeCanvas_channels_alpha demoImg demoImg (fun _ _ => true)
    (fun _ _ => true) 2 2 2 2 (fun _ => 0) 100).2 (by norm_num)
  refine ⟨h.1, ?_⟩
  have h2 := h.2 0 0 (by norm_num) (by norm_num)
  rw [h2, if_pos (Or.inr ⟨by norm_num, by norm_num, rfl⟩)]

/-- `actual_border_width = int(final_size * border_percentage)`
(renderer.py line 597). -/
noncomputable def ppBorderWidth (finalSize : ℕ) (bp : ℝ) : ℤ :=
  truncInt ((finalSize : ℝ) * bp)

/-- `inner_size = final_size - 2 * actual_border_width` (renderer.py
line 600). -/
noncomputable def ppInnerSize (finalSize : ℕ) (bp : ℝ) : ℤ :=
  (finalSize : ℤ) - 2 * ppBorderWidth finalSize bp

/-- `scale_ratio = inner_size / max(width, height)` (renderer.py line 603). -/
noncomputable def ppScale (img : Img) (finalSize : ℕ) (bp : ℝ) : ℝ :=
  ((ppInnerSize finalSize bp : ℤ) : ℝ) / ((max img.width img.height : ℕ) : ℝ)

/-- `new_height = int(height * scale_ratio)` (renderer.py line 604). -/
noncomputable def ppNewH (img : Img) (finalSize : ℕ) (bp : ℝ) : ℕ :=
  (truncInt ((img.height : ℝ) * ppScale img finalSize bp)).toNat

/-- `new_width = int(width * scale_ratio)` (renderer.py line 605). -/
noncomputable def ppNewW (img : Img) (finalSize : ℕ) (bp : ℝ) : ℕ :=
  (truncInt ((img.width : ℝ) * ppScale img finalSize bp)).toNat

/-- `_post_process_image` (renderer.py lines 589-640): resize the composed
image by `scale_ratio`, center it on a square `finalSize` canvas pre-filled
with the background color (and the background alpha in channel 3 when the
image carries an alpha channel). -/
noncomputable def postProcessImage (img : Img) (finalSize : ℕ) (bp : ℝ)
    (bgRGB : ℕ → ℝ) (bgAlpha : ℝ) : Img where
  height := finalSize
  width := finalSize
  channels := if img.channels = 4 then 4 else 3
  pix := fun y x c =>
    if (finalSize - ppNewH img finalSize bp) / 2 ≤ y ∧
        y < (finalSize - ppNewH img finalSize bp) / 2 + ppNewH img finalSize bp ∧
        (finalSize - ppNewW img finalSize bp) / 2 ≤ x ∧
        x < (finalSize - ppNewW img finalSize bp) / 2 + ppNewW img finalSize bp then
      (resizeLinear img (ppNewW img finalSize bp) (ppNewH img finalSize bp)).pix
        (y - (finalSize - ppNewH img finalSize bp) / 2)
        (x - (finalSize - ppNewW img finalSize bp) / 2) c
    else if c = 3 then bgAlpha else bgRGB c

lemma truncInt_natCast (n : ℕ) : truncInt (n : ℝ) = n := by
  unfold truncInt
  rw [if_pos (by positivity)]
  exact Int.floor_natCast n

lemma truncInt_intCast (n : ℤ) : truncInt (n : ℝ) = n := by
  unfold truncInt
  split
  · exact Int.floor_intCast n
  · exact Int.ceil_intCast n

lemma ppNewDim_le (k m : ℕ) (inner : ℤ) (hk : k ≤ m) (hm : 0 < m)
    (hinner : 0 ≤ inner) :
    (truncInt ((k : ℝ) * ((inner : ℝ) / (m : ℝ)))).toNat ≤ inner.toNat := by
  have hmr : (0 : ℝ) < (m : ℝ) := by exact_mod_cast hm
  have hdiv : 0 ≤ (inner : ℝ) / (m : ℝ) :=
    div_nonneg (by exact_mod_cast hinner) hmr.le
  have hv0 : 0 ≤ (k : ℝ) * ((inner : ℝ) / (m : ℝ)) := by positivity
  have hle : (k : ℝ) * ((inner : ℝ) / (m : ℝ)) ≤ (inner : ℝ) := by
    have hkm : (k : ℝ) ≤ (m : ℝ) := by exact_mod_cast hk
    have h1 : (k : ℝ) * ((inner : ℝ) / (m : ℝ)) ≤ (m : ℝ) * ((inner : ℝ) / (m : ℝ)) :=
      mul_le_mul_of_nonneg_right hkm hdiv
    have h2 : (m : ℝ) * ((inner : ℝ) / (m : ℝ)) = (inner : ℝ) := by
      field_simp
    linarith
  unfold truncInt
  rw [if_pos hv0]
  have hfl : ⌊(k : ℝ) * ((inner : ℝ) / (m : ℝ))⌋ ≤ inner := by
    have := Int.floor_le_floor hle
    rwa [Int.floor_intCast] at this
  exact Int.toNat_le_toNat hfl

lemma ppNewDim_max_eq (m : ℕ) (inner : ℤ) (hm : 0 < m) :
    (truncInt ((m : ℝ) * ((inner : ℝ) / (m : ℝ)))).toNat = inner.toNat := by
  have hmr : ((m : ℝ)) ≠ 0 := by
    have : (0 : ℝ) < (m : ℝ) := by exact_mod_cast hm
    exact this.ne'
  have h : (m : ℝ) * ((inner : ℝ) / (m : ℝ)) = (inner : ℝ) := by field_simp
  rw [h, truncInt_intCast]

/-- The longer side of the rescaled image equals the (integer) inner size. -/
lemma ppNew_max (img : Img) (finalSize : ℕ) (bp : ℝ)
    (hw : 0 < img.width) (hh : 0 < img.height)
    (hinner : 0 ≤ ppInnerSize finalSize bp) :
    max (ppNewW img finalSize bp) (ppNewH img finalSize bp) =
      (ppInnerSize finalSize bp).toNat := by
  unfold ppNewW ppNewH ppScale
  rcases Nat.le_total img.width img.height with hle | hle
  · rw [max_eq_right hle]
    rw [ppNewDim_max_eq img.height _ (by omega)]
    exact max_eq_right (ppNewDim_le img.width img.height _ hle (by omega) hinner)
  · rw [max_eq_left hle]
    rw [ppNewDim_max_eq img.width _ (by omega)]
    exact max_eq_left (ppNewDim_le img.height img.width _ hle (by omega) hinner)

/-- C4 (amended): the post-processor returns a `finalSize × finalSize` square
holding the input uniformly rescaled so its longer side equals
`inner_size = final_size - 2·int(final_size·border_percentage)`, centered at
offsets `(finalSize - new)/2`, with every other pixel set to the background
color (background alpha in the alpha channel). -/
theorem postProcess_square_scaled_centered (img : Img) (finalSize : ℕ) (bp : ℝ)
    (bgRGB : ℕ → ℝ) (bgAlpha : ℝ) (hw : 0 < img.width) (hh : 0 < img.height)
    (hinner : 0 ≤ ppInnerSize finalSize bp) :
    (postProcessImage img finalSize bp bgRGB bgAlpha).height = finalSize ∧
    (postProcessImage img finalSize bp bgRGB bgAlpha).width = finalSize ∧
    max (ppNewW img finalSize bp) (ppNewH img finalSize bp) =
      (ppInnerSize finalSize bp).toNat ∧
    (∀ y x c,
      ((finalSize - ppNewH img finalSize bp) / 2 ≤ y ∧
        y < (finalSize - ppNewH img finalSize bp) / 2 + ppNewH img finalSize bp ∧
        (finalSize - ppNewW img finalSize bp) / 2 ≤ x ∧
        x < (finalSize - ppNewW img finalSize bp) / 2 + ppNewW img finalSize bp) →
      (postProcessImage img finalSize bp bgRGB bgAlpha).pix y x c =
        (resizeLinear img (ppNewW img finalSize bp) (ppNewH img finalSize bp)).pix
          (y - (finalSize - ppNewH img finalSize bp) / 2)
          (x - (finalSize - ppNewW img finalSize bp) / 2) c) ∧
    (∀ y x c,
      ¬((finalSize - ppNewH img finalSize bp) / 2 ≤ y ∧
        y < (finalSize - ppNewH img finalSize bp) / 2 + ppNewH img finalSize bp ∧
        (finalSize - ppNewW img finalSize bp) / 2 ≤ x ∧
        x < (finalSize - ppNewW img finalSize bp) / 2 + ppNewW img finalSize bp) →
      (postProcessImage img finalSize bp bgRGB bgAlpha).pix y x c =
        if c = 3 then bgAlpha else bgRGB c) := by
  refine ⟨rfl, rfl, ppNew_max img finalSize bp hw hh hinner, ?_, ?_⟩
  · intro y x c hcond
    show (if _ then _ else _) = _
    rw [if_pos hcond]
  · intro y x c hcond
    show (if _ then _ else _) = _
    rw [if_neg hcond]

lemma interpWeight_self (n i : ℕ) (hn : 0 < n) : interpWeight n n i = 0 := by
  unfold interpWeight srcCoord
  have hn0 : ((n : ℝ)) ≠ 0 := by
    have : (0 : ℝ) < (n : ℝ) := by exact_mod_cast hn
    exact this.ne'
  have h : ((i : ℝ) + 1 / 2) * (n : ℝ) / (n : ℝ) - 1 / 2 = (i : ℝ) := by
    field_simp
    ring
  rw [h, Int.floor_natCast]
  simp

lemma sampleLo_self (n i : ℕ) (hn : 0 < n) (hi : i < n) : sampleLo n n i = i := by
  unfold sampleLo srcCoord clampIdx
  have hn0 : ((n : ℝ)) ≠ 0 := by
    have : (0 : ℝ) < (n : ℝ) := by exact_mod_cast hn
    exact this.ne'
  have h : ((i : ℝ) + 1 / 2) * (n : ℝ) / (n : ℝ) - 1 / 2 = (i : ℝ) := by
    field_simp
    ring
  rw [h, Int.floor_natCast]
  rw [max_eq_left (by positivity), min_eq_left (by omega)]
  exact Int.toNat_natCast i

/-- Resizing an image to its own dimensions is the identity on in-bounds
pixels (interpolation weights degenerate to 1·source pixel). -/
lemma resizeLinear_self (img : Img) (hh : 0 < img.height) (hw : 0 < img.width)
    {y x : ℕ} (hy : y < img.height) (hx : x < img.width) (c : ℕ) :
    (resizeLinear img img.width img.height).pix y x c = img.pix y x c := by
  show (1 - interpWeight img.height img.height y) * _ * _ + _ + _ + _ = _
  rw [interpWeight_self _ _ hh, interpWeight_self _ _ hw,
    sampleLo_self _ _ hh hy, sampleLo_self _ _ hw hx]
  ring

/-- Bilinear resize of a constant image is constant. -/
lemma resizeLinear_const (hgt wdt chn : ℕ) (v : ℝ) (nW nH y x c : ℕ) :
    (resizeLinear ⟨hgt, wdt, chn, fun _ _ _ => v⟩ nW nH).pix y x c = v := by
  show (1 - interpWeight hgt nH y) * (1 - interpWeight wdt nW x) * v + _ + _ + _ = v
  ring

/-- C5 (amended): the post-processor is idempotent when the computed border
width `int(final_size·border_percentage)` is zero, i.e. when the inner area
coincides with the whole square canvas. -/
theorem postProcess_idem_of_zero_border (img : Img) (finalSize : ℕ) (bp : ℝ)
    (bgRGB : ℕ → ℝ) (bgAlpha : ℝ) (hfs : 0 < finalSize)
    (hb : ppBorderWidth finalSize bp = 0) :
    ImgEq
      (postProcessImage (postProcessImage img finalSize bp bgRGB bgAlpha)
        finalSize bp bgRGB bgAlpha)
      (postProcessImage img finalSize bp bgRGB bgAlpha) := by
  have hinner : ppInnerSize finalSize bp = (finalSize : ℤ) := by
    unfold ppInnerSize
    rw [hb]
    ring
  have hfsr : ((finalSize : ℝ)) ≠ 0 := by
    have : (0 : ℝ) < (finalSize : ℝ) := by exact_mod_cast hfs
    exact this.ne'
  have hscale : ppScale (postProcessImage img finalSize bp bgRGB bgAlpha)
      finalSize bp = 1 := by
    unfold ppScale
    rw [hinner]
    show ((finalSize : ℤ) : ℝ) / ((max finalSize finalSize : ℕ) : ℝ) = 1
    rw [max_self]
    push_cast
    exact div_self hfsr
  have hnewH : ppNewH (postProcessImage img finalSize bp bgRGB bgAlpha)
      finalSize bp = finalSize := by
    unfold ppNewH
    rw [hscale]
    show (truncInt ((finalSize : ℝ) * 1)).toNat = finalSize
    rw [mul_one, truncInt_natCast]
    exact Int.toNat_natCast finalSize
  have hnewW : ppNewW (postProcessImage img finalSize bp bgRGB bgAlpha)
      finalSize bp = finalSize := by
    unfold ppNewW
    rw [hscale]
    show (truncInt ((finalSize : ℝ) * 1)).toNat = finalSize
    rw [mul_one, truncInt_natCast]
    exact Int.toNat_natCast finalSize
  refine ⟨rfl, rfl, ?_, ?_⟩
  · show (if (if img.channels = 4 then 4 else 3) = 4 then 4 else 3) =
      (if img.channels = 4 then 4 else 3)
    by_cases h4 : img.channels = 4 <;> simp [h4]
  · intro y x c hy hx _hc
    have hy5 : y < finalSize := hy
    have hx5 : x < finalSize := hx
    show (if _ then _ else _) = _
    rw [hnewH, hnewW]
    rw [if_pos (by omega)]
    have hsub : finalSize - finalSize = 0 := Nat.sub_self finalSize
    rw [hsub]
    show (resizeLinear (postProcessImage img finalSize bp bgRGB bgAlpha)
      finalSize finalSize).pix (y - 0) (x - 0) c = _
    rw [Nat.sub_zero, Nat.sub_zero]
    exact resizeLinear_self (postProcessImage img finalSize bp bgRGB bgAlpha)
      hfs hfs hy5 hx5 c

/-- 10×10 all-white demonstration image. -/
def demoImg10 : Img := ⟨10, 10, 3, fun _ _ _ => 255⟩

/-- 5×5 all-white demonstration image. -/
def demoImg5 : Img := ⟨5, 5, 3, fun _ _ _ => 255⟩

/-- All-zero background color. -/
def zeroPix : ℕ → ℝ := fun _ => 0

lemma demo_border100 : ppBorderWidth 100 (3 / 200) = 1 := by
  unfold ppBorderWidth truncInt
  rw [if_pos (by norm_num)]
  norm_num

lemma demo_inner100 : ppInnerSize 100 (3 / 200) = 98 := by
  unfold ppInnerSize
  rw [demo_border100]
  norm_num

lemma demo_newW100 : ppNewW demoImg10 100 (3 / 200) = 98 := by
  unfold ppNewW ppScale
  rw [demo_inner100]
  have h : ((demoImg10.width : ℕ) : ℝ) *
      (((98 : ℤ) : ℝ) / ((max demoImg10.width demoImg10.height : ℕ) : ℝ)) = 98 := by
    norm_num [demoImg10]
  rw [h, show ((98 : ℝ)) = (((98 : ℤ)) : ℝ) by norm_num, truncInt_intCast]
  rfl

/-- C4 counterexample: at `final_size = 100`, `border_percentage = 0.015`
(both valid), the rescaled longer side is 98 pixels, while the claim's
formula `final_size·(1 − 2·border_percentage)` gives 97 — the source
truncates the border to whole pixels per side before doubling it. -/
theorem postProcess_innerSize_counterexample :
    ppNewW demoImg10 100 (3 / 200) = 98 ∧
    ((ppNewW demoImg10 100 (3 / 200) : ℝ) ≠ (100 : ℝ) * (1 - 2 * (3 / 200))) := by
  refine ⟨demo_newW100, ?_⟩
  rw [demo_newW100]
  norm_num

/-- C4 witness: the amended statement at a concrete 10×10 input. -/
theorem postProcess_square_scaled_centered_witness :
    (postProcessImage demoImg10 100 (3 / 200) zeroPix 0).height = 100 ∧
    max (ppNewW demoImg10 100 (3 / 200)) (ppNewH demoImg10 100 (3 / 200)) =
      (ppInnerSize 100 (3 / 200)).toNat := by
  have h := postProcess_square_scaled_centered demoImg10 100 (3 / 200) zeroPix 0
    (by norm_num [demoImg10]) (by norm_num [demoImg10])
    (by rw [demo_inner100]; norm_num)
  exact ⟨h.1, h.2.2.1⟩

/-- First application of the post-processor in the idempotence scenario. -/
noncomputable def demoPP1 : Img := postProcessImage demoImg5 5 (1 / 5) zeroPix 0

/-- Second application of the post-processor in the idempotence scenario. -/
noncomputable def demoPP2 : Img := postProcessImage demoPP1 5 (1 / 5) zeroPix 0

lemma demo_border5 : ppBorderWidth 5 (1 / 5) = 1 := by
  unfold ppBorderWidth truncInt
  rw [if_pos (by norm_num)]
  norm_num

lemma demo_inner5 : ppInnerSize 5 (1 / 5) = 3 := by
  unfold ppInnerSize
  rw [demo_border5]
  norm_num

lemma ppNewH_five (img : Img) (hh : img.height = 5) (hw : img.width = 5) :
    ppNewH img 5 (1 / 5) = 3 := by
  unfold ppNewH ppScale
  rw [demo_inner5, hh, hw]
  have h : ((5 : ℕ) : ℝ) * (((3 : ℤ) : ℝ) / ((max (5 : ℕ) 5 : ℕ) : ℝ)) = 3 := by
    norm_num
  rw [h, show ((3 : ℝ)) = (((3 : ℤ)) : ℝ) by norm_num, truncInt_intCast]
  rfl

lemma ppNewW_five (img : Img) (hh : img.height = 5) (hw : img.width = 5) :
    ppNewW img 5 (1 / 5) = 3 := by
  unfold ppNewW ppScale
  rw [demo_inner5, hh, hw]
  have h : ((5 : ℕ) : ℝ) * (((3 : ℤ) : ℝ) / ((max (5 : ℕ) 5 : ℕ) : ℝ)) = 3 := by
    norm_num
  rw [h, show ((3 : ℝ)) = (((3 : ℤ)) : ℝ) by norm_num, truncInt_intCast]
  rfl

lemma demoPP1_pix (y x : ℕ) :
    demoPP1.pix y x 0 = if 1 ≤ y ∧ y < 4 ∧ 1 ≤ x ∧ x < 4 then 255 else 0 := by
  show (if (5 - ppNewH demoImg5 5 (1 / 5)) / 2 ≤ y ∧
      y < (5 - ppNewH demoImg5 5 (1 / 5)) / 2 + ppNewH demoImg5 5 (1 / 5) ∧
      (5 - ppNewW demoImg5 5 (1 / 5)) / 2 ≤ x ∧
      x < (5 - ppNewW demoImg5 5 (1 / 5)) / 2 + ppNewW demoImg5 5 (1 / 5) then
      (resizeLinear demoImg5 (ppNewW demoImg5 5 (1 / 5)) (ppNewH demoImg5 5 (1 / 5))).pix
        (y - (5 - ppNewH demoImg5 5 (1 / 5)) / 2)
        (x - (5 - ppNewW demoImg5 5 (1 / 5)) / 2) 0
    else if (0 : ℕ) = 3 then (0 : ℝ) else zeroPix 0) = _
  rw [ppNewH_five demoImg5 rfl rfl, ppNewW_five demoImg5 rfl rfl]
  by_cases h : 1 ≤ y ∧ y < 4 ∧ 1 ≤ x ∧ x < 4
  · rw [if_pos (by omega), if_pos h]
    exact resizeLinear_const 5 5 3 255 3 3 _ _ 0
  · rw [if_neg (by omega), if_neg h]
    norm_num [zeroPix]

lemma demoPP1_pix11 : demoPP1.pix 1 1 0 = 255 := by
  rw [demoPP1_pix]
  norm_num

lemma iw530 : interpWeight 5 3 0 = 1 / 3 := by
  unfold interpWeight srcCoord
  norm_num

lemma lo530 : sampleLo 5 3 0 = 0 := by
  unfold sampleLo srcCoord clampIdx
  norm_num

lemma hi530 : sampleHi 5 3 0 = 1 := by
  unfold sampleHi srcCoord clampIdx
  norm_num

lemma demoPP2_pix11 : demoPP2.pix 1 1 0 = 255 / 9 := by
  have h1 : demoPP2.pix 1 1 0 = (resizeLinear demoPP1 3 3).pix 0 0 0 := by
    show (if (5 - ppNewH demoPP1 5 (1 / 5)) / 2 ≤ 1 ∧
        1 < (5 - ppNewH demoPP1 5 (1 / 5)) / 2 + ppNewH demoPP1 5 (1 / 5) ∧
        (5 - ppNewW demoPP1 5 (1 / 5)) / 2 ≤ 1 ∧
        1 < (5 - ppNewW demoPP1 5 (1 / 5)) / 2 + ppNewW demoPP1 5 (1 / 5) then
        (resizeLinear demoPP1 (ppNewW demoPP1 5 (1 / 5)) (ppNewH demoPP1 5 (1 / 5))).pix
          (1 - (5 - ppNewH demoPP1 5 (1 / 5)) / 2)
          (1 - (5 - ppNewW demoPP1 5 (1 / 5)) / 2) 0
      else if (0 : ℕ) = 3 then (0 : ℝ) else zeroPix 0) = _
    rw [ppNewH_five demoPP1 rfl rfl, ppNewW_five demoPP1 rfl rfl]
    rw [if_pos (by norm_num)]
  rw [h1]
  show (1 - interpWeight 5 3 0) * (1 - interpWeight 5 3 0) *
      demoPP1.pix (sampleLo 5 3 0) (sampleLo 5 3 0) 0 +
    (1 - interpWeight 5 3 0) * interpWeight 5 3 0 *
      demoPP1.pix (sampleLo 5 3 0) (sampleHi 5 3 0) 0 +
    interpWeight 5 3 0 * (1 - interpWeight 5 3 0) *
      demoPP1.pix (sampleHi 5 3 0) (sampleLo 5 3 0) 0 +
    interpWeight 5 3 0 * interpWeight 5 3 0 *
      demoPP1.pix (sampleHi 5 3 0) (sampleHi 5 3 0) 0 = 255 / 9
  rw [iw530, lo530, hi530]
  rw [demoPP1_pix, demoPP1_pix, demoPP1_pix, demoPP1_pix]
  norm_num

/-- C5 counterexample: with a positive computed border (`final_size = 5`,
`border_percentage = 0.2`) the second application of the post-processor
shrinks the first output again — pixel (1,1) is 255 after one application but
255/9 after two — so the post-processor is not idempotent as claimed. -/
theorem postProcess_not_idempotent_counterexample : ¬ ImgEq demoPP2 demoPP1 := by
  intro h
  have hpix := h.2.2.2 1 1 0 (by show (1 : ℕ) < 5; norm_num)
    (by show (1 : ℕ) < 5; norm_num) (by show (0 : ℕ) < 3; norm_num)
  rw [demoPP2_pix11, demoPP1_pix11] at hpix
  norm_num at hpix

/-- C5 witness: with a zero computed border the post-processor is idempotent
at a concrete 5×5 input. -/
theorem postProcess_idem_of_zero_border_witness :
    ImgEq (postProcessImage (postProcessImage demoImg5 5 0 zeroPix 0) 5 0 zeroPix 0)
      (postProcessImage demoImg5 5 0 zeroPix 0) :=
  postProcess_idem_of_zero_border demoImg5 5 0 zeroPix 0 (by norm_num)
    (by unfold ppBorderWidth; norm_num [truncInt])

/-- Physical spine width in mm: `spine_height / ppmm / orig_h * orig_w` with
`spine_height = cover_height` (renderer.py lines 36-37, identically line 174
as `pivot_width`). -/
noncomputable def spineWidthMm (spine : Img) (cover_height : ℝ) : ℝ :=
  cover_height / displayPpmm / spine.height * spine.width

/-- Display spine width in pixels: `spine_width * ppmm * sin(spine_angle)`
(renderer.py line 39, identically line 175 as `pivot_width_px`). -/
noncomputable def displaySpineWidth (spine : Img) (cover_height spineAngle : ℝ) : ℝ :=
  spineWidthMm spine cover_height * displayPpmm * Real.sin spineAngle

/-- Bottom spine offset (renderer.py lines 40-41, identically lines
177-178). -/
noncomputable def spineOffsetBottom (spine : Img) (cover_height spineAngle camH bd : ℝ) : ℝ :=
  camH * spineWidthMm spine cover_height * Real.cos spineAngle /
    (bd + spineWidthMm spine cover_height * Real.cos spineAngle)

/-- Top spine offset (renderer.py lines 42-43, identically lines 179-180). -/
noncomputable def spineOffsetTop (spine : Img) (cover_height spineAngle camHC bd : ℝ) : ℝ :=
  camHC * spineWidthMm spine cover_height * Real.cos spineAngle /
    (bd + spineWidthMm spine cover_height * Real.cos spineAngle)

/-- The image handed to the curl processor in the hardcover path: a plain
axis-aligned `cv2.resize` of the spine to the pivot dimensions
`(int(pivot_width_px), int(pivot_height))` (renderer.py lines 182-185); no
perspective transform is applied to it. -/
noncomputable def hardcoverCurlInput (spine : Img) (cover_height spineAngle : ℝ) : Img :=
  resizeLinear spine (truncInt (displaySpineWidth spine cover_height spineAngle)).toNat
    (truncInt cover_height).toNat

/-- The mask handed to the curl processor in the hardcover path:
`np.ones(..., dtype=bool)`, i.e. true everywhere (renderer.py line 188). -/
def hardcoverCurlMask : ℕ → ℕ → Bool := fun _ _ => true

/-- The per-spine hardcover transform up to and including the curl processor
(renderer.py lines 168-193): resize the spine to pivot dimensions, then apply
the quarter-ellipse column remapping with the pivot offsets and an all-true
mask. -/
noncomputable def hardcoverSpineCurled (spine : Img) (cover_height spineAngle camH camHC bd : ℝ)
    (bg : ℕ → ℝ) : Img :=
  processSpineImage (hardcoverCurlInput spine cover_height spineAngle) hardcoverCurlMask
    (spineOffsetTop spine cover_height spineAngle camHC bd)
    (spineOffsetBottom spine cover_height spineAngle camH bd)
    (truncInt (displaySpineWidth spine cover_height spineAngle)).toNat
    (truncInt cover_height).toNat bg

/-- The mask produced by the per-spine hardcover curl (renderer.py line
191). -/
noncomputable def hardcoverSpineCurledMask (spine : Img)
    (cover_height spineAngle camH camHC bd : ℝ) : ℕ → ℕ → Bool :=
  processSpineMask hardcoverCurlMask
    (spineOffsetTop spine cover_height spineAngle camHC bd)
    (spineOffsetBottom spine cover_height spineAngle camH bd)
    (truncInt (displaySpineWidth spine cover_height spineAngle)).toNat
    (truncInt cover_height).toNat

/-- Modelled from the spec: §4.2 and §2 say the spine is perspective-warped
onto the destination quadrilateral `[(0, offTop), (W, 0), (W, H),
(0, H − offBottom)]` (the quadrilateral of the softcover warp, renderer.py
line 48), and the warped all-true mask is true exactly at destination pixels
covered by that quadrilateral. Integer version used to compare against the
mask the hardcover code actually hands to the curl processor. -/
def specSpineQuadMask (wOut hOut offTop offBottom x y : ℤ) : Bool :=
  decide (0 ≤ x) && decide (x ≤ wOut) &&
    decide (offTop * (wOut - x) ≤ y * wOut) &&
    decide (y * wOut ≤ (hOut - offBottom) * wOut + offBottom * x)

/-- C6 counterexample: with positive top/bottom offsets (here 2 on a 10×10
spine panel) the perspective-warped spine mask the spec describes is false at
the top-left destination corner, while the mask the hardcover code hands to
the Spine Curl Processor is the all-true `np.ones` mask — so the curl input
is not the output of the claimed perspective warp. -/
theorem hardcoverCurl_input_not_warped_counterexample :
    hardcoverCurlMask 0 0 = true ∧ specSpineQuadMask 10 10 2 2 0 0 = false :=
  ⟨rfl, by decide⟩

/-- C6 (amended): in hardcover rendering each spine segment is NOT run
through the perspective warper before curling — the Spine Curl Processor
receives the plain axis-aligned resize of the spine to pivot dimensions
together with an all-true content mask, the offsets acting only through the
curl displacement; in particular the rightmost curled column equals the
resized spine's rightmost column unchanged. -/
theorem hardcoverCurl_receives_plain_resize (spine : Img)
    (cover_height spineAngle camH camHC bd : ℝ) (bg : ℕ → ℝ)
    (hw : 0 < (truncInt (displaySpineWidth spine cover_height spineAngle)).toNat) :
    hardcoverSpineCurled spine cover_height spineAngle camH camHC bd bg =
      processSpineImage
        (resizeLinear spine
          (truncInt (displaySpineWidth spine cover_height spineAngle)).toNat
          (truncInt cover_height).toNat)
        hardcoverCurlMask
        (spineOffsetTop spine cover_height spineAngle camHC bd)
        (spineOffsetBottom spine cover_height spineAngle camH bd)
        (truncInt (displaySpineWidth spine cover_height spineAngle)).toNat
        (truncInt cover_height).toNat bg ∧
    (∀ y x, hardcoverCurlMask y x = true) ∧
    (∀ y c, y < (truncInt cover_height).toNat →
      (hardcoverSpineCurled spine cover_height spineAngle camH camHC bd bg).pix y
        ((truncInt (displaySpineWidth spine cover_height spineAngle)).toNat - 1) c =
      (hardcoverCurlInput spine cover_height spineAngle).pix y
        ((truncInt (displaySpineWidth spine cover_height spineAngle)).toNat - 1) c) := by
  refine ⟨rfl, fun _ _ => rfl, ?_⟩
  intro y c hy
  show (if 0 ≤ curlNewY _ _ _ _ _ y ∧ _ ∧ _ then _ else bg c) = _
  rw [curlNewY_last hw]
  rw [if_pos ⟨by positivity, by exact_mod_cast hy, by
    rw [Int.toNat_natCast]
    rfl⟩]
  rw [Int.toNat_natCast]

lemma demo_pivotWidthPx : displaySpineWidth demoImg 4 (Real.pi / 2) = 4 := by
  unfold displaySpineWidth spineWidthMm
  rw [Real.sin_pi_div_two]
  show (4 : ℝ) / displayPpmm / ((2 : ℕ) : ℝ) * ((2 : ℕ) : ℝ) * displayPpmm * 1 = 4
  have hp : displayPpmm ≠ 0 := displayPpmm_pos.ne'
  field_simp
  ring

lemma demo_truncPivot :
    (truncInt (displaySpineWidth demoImg 4 (Real.pi / 2))).toNat = 4 := by
  rw [demo_pivotWidthPx, show ((4 : ℝ)) = (((4 : ℤ)) : ℝ) by norm_num, truncInt_intCast]
  rfl

/-- C6 witness: at a concrete 2×2 spine with spine angle π/2 the rightmost
curled column equals the plain-resized input column. -/
theorem hardcoverCurl_receives_plain_resize_witness :
    (hardcoverSpineCurled demoImg 4 (Real.pi / 2) 0 0 1 zeroPix).pix 0
        ((truncInt (displaySpineWidth demoImg 4 (Real.pi / 2))).toNat - 1) 0 =
      (hardcoverCurlInput demoImg 4 (Real.pi / 2)).pix 0
        ((truncInt (displaySpineWidth demoImg 4 (Real.pi / 2))).toNat - 1) 0 :=
  (hardcoverCurl_receives_plain_resize demoImg 4 (Real.pi / 2) 0 0 1 zeroPix
    (by rw [demo_truncPivot]; norm_num)).2.2 0 0
    (by rw [show ((4 : ℝ)) = (((4 : ℤ)) : ℝ) by norm_num, truncInt_intCast]; norm_num)

open Classical

/-- Exceptions the render pipeline can raise. `invalidImage` is modelled from
the spec: §7's error taxonomy names `InvalidImageError`, but the source
defines no such type anywhere — the constructor exists only so theorems can
state which error is (or is not) raised. -/
inductive RenderError where
  | valueErrorEmptySpines
  | zeroDivision
  | cvSizeError
  | invalidImage
  deriving DecidableEq

/-- Abstract resampling oracle standing for OpenCV's inverse-homography
bilinear resampling inside `cv2.warpPerspective`; no claim depends on the
sampled values, only on the fill/mask structure and the failure behavior. -/
def WarpSampler : Type := Img → ℕ → ℕ → ℕ → ℝ

/-- `_calculate_transform_params` with Python failure semantics
(renderer.py lines 416-449): `cover_height` divides by the cover's pixel
width (line 425: `ZeroDivisionError` when it is zero), and the offset
formulas divide by `book_distance + cover_width·sin(angle)`
(lines 435-438). -/
noncomputable def calcTransformParams (cover : Img)
    (cover_width persp spread camHFrac bd : ℝ) : Except RenderError TransformParams :=
  if cover.width = 0 then .error .zeroDivision
  else if bd + cover_width * Real.sin (radians persp) = 0 then .error .zeroDivision
  else .ok (mkTransformParams cover.width cover.height cover_width persp spread camHFrac bd)

/-- Membership of destination pixel `(x, y)` in the cover's destination
quadrilateral `[(0,0), (dcw, offTop), (dcw, ch − offBottom), (0, ch)]`
(renderer.py lines 463-464). -/
noncomputable def coverQuadContains (p : TransformParams) (x y : ℕ) : Prop :=
  (x : ℝ) ≤ p.display_cover_width ∧
    p.offset_y_top * x ≤ y * p.display_cover_width ∧
    (y : ℝ) * p.display_cover_width ≤
      p.cover_height * p.display_cover_width - p.offset_y_bottom * x

/-- Membership of destination pixel `(x, y)` in the spine's destination
quadrilateral `[(0, offTop), (W, 0), (W, H), (0, H − offBottom)]`
(renderer.py lines 48-49). -/
noncomputable def spineQuadContains (wOut hOut offTop offBottom : ℝ) (x y : ℕ) : Prop :=
  (x : ℝ) ≤ wOut ∧ offTop * (wOut - x) ≤ y * wOut ∧
    (y : ℝ) * wOut ≤ (hOut - offBottom) * wOut + offBottom * x

/-- `_transform_cover` (renderer.py lines 451-482) with OpenCV failure
semantics: `cv2.warpPerspective` to a destination of non-positive width or
height raises `cv2.error`. The warped image holds resampled source values
inside the destination quadrilateral and the background fill outside; the
warped all-ones mask is true exactly inside the quadrilateral. -/
noncomputable def transformCover (sampler : WarpSampler) (cover : Img)
    (p : TransformParams) (bg : ℕ → ℝ) :
    Except RenderError (Img × (ℕ → ℕ → Bool)) :=
  if truncInt p.display_cover_width ≤ 0 ∨ truncInt p.cover_height ≤ 0 then
    .error .cvSizeError
  else
    .ok ({ height := (truncInt p.cover_height).toNat,
           width := (truncInt p.display_cover_width).toNat,
           channels := cover.channels,
           pix := fun y x c =>
             if coverQuadContains p x y then sampler cover y x c else bg c },
         fun y x => decide (coverQuadContains p x y))

/-- `_transform_spine` (renderer.py lines 21-67) with Python/OpenCV failure
semantics: the physical spine width divides by the spine's pixel height
(line 37), the offsets divide by `book_distance + spine_width·cos(angle)`
(lines 40-43), and `cv2.warpPerspective` to an empty destination raises
`cv2.error` (lines 53-56). -/
noncomputable def transformSpine (sampler : WarpSampler) (spine : Img)
    (cover_height spineAngle camH camHC bd : ℝ) (bg : ℕ → ℝ) :
    Except RenderError (Img × (ℕ → ℕ → Bool)) :=
  if spine.height = 0 then .error .zeroDivision
  else if bd + spineWidthMm spine cover_height * Real.cos spineAngle = 0 then
    .error .zeroDivision
  else if truncInt (displaySpineWidth spine cover_height spineAngle) ≤ 0 ∨
      truncInt cover_height ≤ 0 then .error .cvSizeError
  else
    .ok ({ height := (truncInt cover_height).toNat,
           width := (truncInt (displaySpineWidth spine cover_height spineAngle)).toNat,
           channels := spine.channels,
           pix := fun y x c =>
             if spineQuadContains (displaySpineWidth spine cover_height spineAngle)
                 cover_height (spineOffsetTop spine cover_height spineAngle camHC bd)
                 (spineOffsetBottom spine cover_height spineAngle camH bd) x y then
               sampler spine y x c
             else bg c },
         fun y x => decide (spineQuadContains
           (displaySpineWidth spine cover_height spineAngle) cover_height
           (spineOffsetTop spine cover_height spineAngle camHC bd)
           (spineOffsetBottom spine cover_height spineAngle camH bd) x y))

/-- The cover path of `_generate_3d_cover`: parameter calculation followed by
the cover warp (renderer.py lines 503-514). -/
noncomputable def coverStage (sampler : WarpSampler) (cover : Img)
    (cover_width persp spread camHFrac bd : ℝ) (bg : ℕ → ℝ) :
    Except RenderError (Img × (ℕ → ℕ → Bool)) :=
  match calcTransformParams cover cover_width persp spread camHFrac bd with
  | .error e => .error e
  | .ok p => transformCover sampler cover p bg

/-- A 5-row cover image of zero pixel width. -/
def zeroWidthCover : Img := ⟨5, 0, 3, fun _ _ _ => 0⟩

/-- A 5-column cover image of zero pixel height. -/
def zeroHeightCover : Img := ⟨0, 5, 3, fun _ _ _ => 0⟩

/-- Constant resampling oracle used by closed statements. -/
def constSampler : WarpSampler := fun _ _ _ _ => 0

/-- C7 counterexample: a zero-width cover reaching the warp path fails with
the modelled Python `ZeroDivisionError` (raised computing `cover_height` in
`_calculate_transform_params`), not with `InvalidImageError` — the source
defines no `InvalidImageError` at all. -/
theorem zeroWidth_cover_raises_zeroDivision :
    coverStage constSampler zeroWidthCover 187 35 0 (1 / 2) 800 zeroPix =
      .error .zeroDivision ∧
    RenderError.zeroDivision ≠ RenderError.invalidImage := by
  constructor
  · rfl
  · decide

/-- C7 (amended): a zero-width or zero-height source image reaching a warp
step makes that stage fail with an exception — the modelled
`ZeroDivisionError` from the geometry divisions or the OpenCV error from an
empty warp target — and never with the spec's `InvalidImageError` (which the
source does not define); no warped output is produced. -/
theorem zeroSize_warp_fails (sampler : WarpSampler) (cover spine : Img)
    (cover_width persp spread camHFrac bd cover_height spineAngle camH camHC bd' : ℝ)
    (bg : ℕ → ℝ) :
    (cover.width = 0 ∨ cover.height = 0 →
      ∃ e, coverStage sampler cover cover_width persp spread camHFrac bd bg =
        .error e ∧ e ≠ RenderError.invalidImage) ∧
    (spine.height = 0 ∨ spine.width = 0 →
      ∃ e, transformSpine sampler spine cover_height spineAngle camH camHC bd' bg =
        .error e ∧ e ≠ RenderError.invalidImage) := by
  constructor
  · intro h
    by_cases hw : cover.width = 0
    · refine ⟨.zeroDivision, ?_, by decide⟩
      unfold coverStage calcTransformParams
      rw [if_pos hw]
    · have hh : cover.height = 0 := by tauto
      unfold coverStage calcTransformParams
      rw [if_neg hw]
      by_cases hden : bd + cover_width * Real.sin (radians persp) = 0
      · exact ⟨.zeroDivision, by rw [if_pos hden], by decide⟩
      · rw [if_neg hden]
        refine ⟨.cvSizeError, ?_, by decide⟩
        show transformCover sampler cover
          (mkTransformParams cover.width cover.height cover_width persp spread camHFrac bd)
          bg = _
        unfold transformCover
        rw [if_pos (Or.inr (by
          show truncInt (displayPpmm * cover_width / (cover.width : ℝ) *
            (cover.height : ℝ)) ≤ 0
          rw [hh]
          norm_num [truncInt_zero]))]
  · intro h
    unfold transformSpine
    by_cases hsh : spine.height = 0
    · exact ⟨.zeroDivision, by rw [if_pos hsh], by decide⟩
    · have hsw : spine.width = 0 := by tauto
      rw [if_neg hsh]
      by_cases hden : bd' + spineWidthMm spine cover_height * Real.cos spineAngle = 0
      · exact ⟨.zeroDivision, by rw [if_pos hden], by decide⟩
      · rw [if_neg hden]
        refine ⟨.cvSizeError, ?_, by decide⟩
        rw [if_pos (Or.inl (by
          show truncInt (spineWidthMm spine cover_height * displayPpmm *
            Real.sin spineAngle) ≤ 0
          unfold spineWidthMm
          rw [hsw]
          norm_num [truncInt_zero]))]

/-- C7 witness: both conjuncts of `zeroSize_warp_fails` at zero-sized
concrete images. -/
theorem zeroSize_warp_fails_witness :
    (∃ e, coverStage constSampler zeroHeightCover 187 35 0 (1 / 2) 800 zeroPix =
      .error e ∧ e ≠ RenderError.invalidImage) ∧
    (∃ e, transformSpine constSampler zeroWidthCover 900 (1 / 2) 450 450 800 zeroPix =
      .error e ∧ e ≠ RenderError.invalidImage) :=
  ⟨(zeroSize_warp_fails constSampler zeroHeightCover zeroWidthCover 187 35 0 (1 / 2)
      800 900 (1 / 2) 450 450 800 zeroPix).1 (Or.inr rfl),
   (zeroSize_warp_fails constSampler zeroHeightCover zeroWidthCover 187 35 0 (1 / 2)
      800 900 (1 / 2) 450 450 800 zeroPix).2 (Or.inr rfl)⟩

/-- Right-to-left concatenation of a list of images sharing one height: the
first list element ends up rightmost (renderer.py lines 313-321). -/
noncomputable def concatRightToLeft (imgs : List Img) (hgt : ℕ) : Img :=
  match imgs with
  | [] => ⟨hgt, 0, 3, fun _ _ _ => 0⟩
  | s :: rest =>
    { height := hgt,
      width := (concatRightToLeft rest hgt).width + s.width,
      channels := 3,
      pix := fun y x c =>
        if x < (concatRightToLeft rest hgt).width then
          (concatRightToLeft rest hgt).pix y x c
        else s.pix y (x - (concatRightToLeft rest hgt).width) c }

/-- `_merge_spines` (renderer.py lines 285-325): an empty spine list raises
`ValueError` (line 296); a zero-height spine makes `scale = max_height / h`
raise `ZeroDivisionError` (line 308); otherwise every spine is rescaled to
the maximum height and the results are concatenated right-to-left. The
RGB↔BGR round trip at lines 299/324 is channel-wise and cancels. -/
noncomputable def mergeSpines (spines : List Img) : Except RenderError Img :=
  if spines.isEmpty then .error .valueErrorEmptySpines
  else if spines.any (fun s => s.height == 0) then .error .zeroDivision
  else
    .ok (concatRightToLeft
      (spines.map (fun s =>
        resizeLinear s
          (truncInt ((s.width : ℝ) *
            (((spines.map Img.height).foldr max 0 : ℕ) : ℝ) / (s.height : ℝ))).toNat
          ((spines.map Img.height).foldr max 0)))
      ((spines.map Img.height).foldr max 0))

/-- One iteration of the hardcover per-spine loop (renderer.py lines
168-214): curl the pivot-resized spine, then rescale the curled result to the
chained display height; returns the placed piece (image, mask, width) and the
next `last_spine_height`. -/
noncomputable def hardcoverPiece (spine : Img)
    (cover_height spineAngle camH camHC bd : ℝ) (bg : ℕ → ℝ) (lastH : ℝ) :
    (Img × (ℕ → ℕ → Bool) × ℕ) × ℝ :=
  let dispH := (truncInt lastH).toNat
  let dispW := (truncInt (displaySpineWidth spine cover_height spineAngle *
    (dispH : ℝ) / cover_height)).toNat
  (⟨resizeLinear (hardcoverSpineCurled spine cover_height spineAngle camH camHC bd bg)
      dispW dispH,
    fun y x =>
      hardcoverSpineCurledMask spine cover_height spineAngle camH camHC bd
        (clampIdx (truncInt cover_height).toNat ⌊(y : ℝ) * (truncInt cover_height).toNat / dispH⌋)
        (clampIdx (truncInt (displaySpineWidth spine cover_height spineAngle)).toNat
          ⌊(x : ℝ) * (truncInt (displaySpineWidth spine cover_height spineAngle)).toNat / dispW⌋),
    dispW⟩,
   (dispH : ℝ) - spineOffsetTop spine cover_height spineAngle camHC bd -
     spineOffsetBottom spine cover_height spineAngle camH bd)

/-- The chained per-spine loop of `_transform_spine_hardcover` (renderer.py
lines 166-214). -/
noncomputable def hardcoverPieces (cover_height spineAngle camH camHC bd : ℝ)
    (bg : ℕ → ℝ) : List Img → ℝ → List (Img × (ℕ → ℕ → Bool) × ℕ)
  | [], _ => []
  | s :: rest, lastH =>
    (hardcoverPiece s cover_height spineAngle camH camHC bd bg lastH).1 ::
      hardcoverPieces cover_height spineAngle camH camHC bd bg rest
        (hardcoverPiece s cover_height spineAngle camH camHC bd bg lastH).2

/-- Right-to-left placement of the curled hardcover pieces onto the merged
canvas (renderer.py lines 228-246): each piece is vertically offset by
`int((cover_height - h) * camera_height_complement / cover_height)` and only
its first three channels are written; untouched pixels keep the opaque
background. -/
noncomputable def placePieces (pieces : List (Img × (ℕ → ℕ → Bool) × ℕ))
    (cover_height camHC : ℝ) (bg : ℕ → ℝ) (rightEdge : ℕ) : ℕ → ℕ → ℕ → ℝ :=
  match pieces with
  | [] => fun _ _ c => if c = 3 then 255 else bg c
  | (s, _, w) :: rest => fun y x c =>
    if rightEdge - w ≤ x ∧ x < rightEdge ∧
        (truncInt ((cover_height - (s.height : ℝ)) * camHC / cover_height)).toNat ≤ y ∧
        y < (truncInt ((cover_height - (s.height : ℝ)) * camHC / cover_height)).toNat +
          s.height ∧ c < 3 then
      s.pix (y - (truncInt ((cover_height - (s.height : ℝ)) * camHC / cover_height)).toNat)
        (x - (rightEdge - w)) c
    else placePieces rest cover_height camHC bg (rightEdge - w) y x c

/-- The merged-mask placement corresponding to `placePieces` (renderer.py
line 246). -/
noncomputable def placeMasks (pieces : List (Img × (ℕ → ℕ → Bool) × ℕ))
    (cover_height camHC : ℝ) (rightEdge : ℕ) : ℕ → ℕ → Bool :=
  match pieces with
  | [] => fun _ _ => false
  | (s, m, w) :: rest => fun y x =>
    if rightEdge - w ≤ x ∧ x < rightEdge ∧
        (truncInt ((cover_height - (s.height : ℝ)) * camHC / cover_height)).toNat ≤ y ∧
        y < (truncInt ((cover_height - (s.height : ℝ)) * camHC / cover_height)).toNat +
          s.height then
      m (y - (truncInt ((cover_height - (s.height : ℝ)) * camHC / cover_height)).toNat)
        (x - (rightEdge - w))
    else placeMasks rest cover_height camHC (rightEdge - w) y x

/-- `_transform_spine_hardcover` (renderer.py lines 147-248) with Python
failure semantics: a zero-height spine raises `ZeroDivisionError` computing
its pivot width (line 174), and an empty pivot/display resize target raises
`cv2.error`. The merged spine is the right-to-left placement of the curled
pieces on an opaque background canvas. -/
noncomputable def transformSpineHardcoverE (spines : List Img)
    (cover_height spineAngle camH camHC bd : ℝ) (bg : ℕ → ℝ) :
    Except RenderError (Img × (ℕ → ℕ → Bool) × ℕ) :=
  if spines.any (fun s => s.height == 0) then .error .zeroDivision
  else
    .ok (⟨{ height := (truncInt cover_height).toNat,
            width := ((hardcoverPieces cover_height spineAngle camH camHC bd bg spines
              cover_height).map (fun p => p.2.2)).sum,
            channels := 4,
            pix := placePieces
              (hardcoverPieces cover_height spineAngle camH camHC bd bg spines cover_height)
              cover_height camHC bg
              ((hardcoverPieces cover_height spineAngle camH camHC bd bg spines
                cover_height).map (fun p => p.2.2)).sum },
          placeMasks
            (hardcoverPieces cover_height spineAngle camH camHC bd bg spines cover_height)
            cover_height camHC
            ((hardcoverPieces cover_height spineAngle camH camHC bd bg spines
              cover_height).map (fun p => p.2.2)).sum,
          ((hardcoverPieces cover_height spineAngle camH camHC bd bg spines
            cover_height).map (fun p => p.2.2)).sum⟩)

/-- `render_3d_cover` (renderer.py lines 642-697): shadow step, spine
merging, geometry, cover and spine warps (per book type), canvas composition
and post-processing, with Python failure semantics threaded through
`Except`. -/
noncomputable def render3dCover (loadAsset : String → Option Img)
    (sampler : WarpSampler) (cover : Img) (spines : List Img) (mode : String)
    (persp bd cover_width : ℝ) (bg : ℕ → ℝ) (bgAlpha : ℕ)
    (spread camHFrac : ℝ) (finalSize : ℕ) (bp : ℝ) (bookType : String) :
    Except RenderError Img :=
  match mergeSpines (applyShadowToSpines loadAsset spines mode) with
  | .error e => .error e
  | .ok spineImg =>
    match calcTransformParams cover cover_width persp spread camHFrac bd with
    | .error e => .error e
    | .ok p =>
      match transformCover sampler cover p bg with
      | .error e => .error e
      | .ok cw =>
        match
          (if bookType = "精装" then
            transformSpineHardcoverE (applyShadowToSpines loadAsset spines mode)
              p.cover_height p.spine_angle_rad p.camera_height
              p.camera_height_complement bd bg
          else
            match transformSpine sampler spineImg p.cover_height p.spine_angle_rad
                p.camera_height p.camera_height_complement bd bg with
            | .error e => .error e
            | .ok sv => .ok ⟨sv.1, sv.2,
                (truncInt (displaySpineWidth spineImg p.cover_height
                  p.spine_angle_rad)).toNat⟩) with
        | .error e => .error e
        | .ok sw =>
          .ok (postProcessImage
            (composeCanvas cw.1 (fun y x => cw.2 y x) sw.1 (fun y x => sw.2.1 y x)
              (truncInt p.display_cover_width).toNat (truncInt p.cover_height).toNat
              sw.2.2 (truncInt p.cover_height).toNat bg bgAlpha)
            finalSize bp bg (bgAlpha : ℝ))

/-- C10: invoking the render with an empty spine list makes the spine-merging
step raise `ValueError` (renderer.py line 296) before any geometry or
composition runs — the pipeline short-circuits with that error and produces
no output image, for every book type and shadow mode. -/
theorem render_emptySpines_valueError (loadAsset : String → Option Img)
    (sampler : WarpSampler) (cover : Img) (mode : String)
    (persp bd cover_width : ℝ) (bg : ℕ → ℝ) (bgAlpha : ℕ)
    (spread camHFrac : ℝ) (finalSize : ℕ) (bp : ℝ) (bookType : String) :
    render3dCover loadAsset sampler cover [] mode persp bd cover_width bg bgAlpha
      spread camHFrac finalSize bp bookType =
      .error .valueErrorEmptySpines := by
  have hshadow : applyShadowToSpines loadAsset [] mode = [] := by
    simp [applyShadowToSpines]
  unfold render3dCover
  rw [hshadow]
  rfl

/-- A heap of NumPy arrays addressed by identity: in-place NumPy writes
mutate the array at an id, while `copy()` / `np.array(...)` / OpenCV results
allocate fresh ids. -/
def Store : Type := List (ℕ × Img)

/-- Look an array up by id. -/
def lookupStore (s : Store) (i : ℕ) : Option Img :=
  match s with
  | [] => none
  | (j, v) :: rest => if j = i then some v else lookupStore rest i

/-- In-place overwrite of the array at id `i`. -/
def updateStore (s : Store) (i : ℕ) (v : Img) : Store :=
  s.map (fun p => if p.1 = i then (i, v) else p)

/-- An id not yet present in the store. -/
def freshId (s : Store) : ℕ :=
  s.foldr (fun p m => max (p.1 + 1) m) 0

/-- Placeholder for a dangling lookup. -/
def emptyImg : Img := ⟨0, 0, 0, fun _ _ _ => 0⟩

/-- Dereference an id (dangling ids yield the empty image). -/
def getImg (s : Store) (i : ℕ) : Img := (lookupStore s i).getD emptyImg

/-- Channel slice assignment `arr[:, :, c] = f` on an image value. -/
def setChannel (img : Img) (c : ℕ) (f : ℕ → ℕ → ℝ) : Img :=
  { img with pix := fun y x c' => if c' = c then f y x else img.pix y x c' }

/-- In-place channel write `arr[:, :, c] = f` at id `r`. -/
def writeChannel (s : Store) (r c : ℕ) (f : ℕ → ℕ → ℝ) : Store :=
  updateStore s r (setChannel (getImg s r) c f)

/-- The value written into channel `c` of the result (renderer.py line 278):
it reads `original_image` and the resized shadow, never the result array. -/
noncomputable def blendChannel (original resized : Img) (c : ℕ) : ℕ → ℕ → ℝ :=
  fun y x => (1 - resized.pix y x 3 / 255) * original.pix y x c +
    resized.pix y x 3 / 255 * resized.pix y x c

/-- `_overlay_shadow` as a store operation (renderer.py lines 250-283):
`result = original_image.copy()` allocates a fresh array, and the three
channel assignments `result[:, :, c] = ...` write only into that fresh id;
the no-alpha branch allocates the `cv2.addWeighted` result fresh. Returns the
updated store and the result id. -/
noncomputable def overlayShadowOp (s : Store) (origId shId : ℕ) : Store × ℕ :=
  if (resizeLinear (getImg s shId) (getImg s origId).width
      (getImg s origId).height).channels = 4 then
    (writeChannel
      (writeChannel
        (writeChannel ((freshId s, getImg s origId) :: s) (freshId s) 0
          (blendChannel (getImg s origId)
            (resizeLinear (getImg s shId) (getImg s origId).width
              (getImg s origId).height) 0))
        (freshId s) 1
        (blendChannel (getImg s origId)
          (resizeLinear (getImg s shId) (getImg s origId).width
            (getImg s origId).height) 1))
      (freshId s) 2
      (blendChannel (getImg s origId)
        (resizeLinear (getImg s shId) (getImg s origId).width
          (getImg s origId).height) 2),
     freshId s)
  else
    ((freshId s,
      { height := (getImg s origId).height, width := (getImg s origId).width,
        channels := (getImg s origId).channels,
        pix := fun y x c => (getImg s origId).pix y x c +
          0.5 * (resizeLinear (getImg s shId) (getImg s origId).width
            (getImg s origId).height).pix y x c }) :: s,
     freshId s)

/-- One spine iteration of `_apply_shadow_to_spines` (renderer.py lines
368-378) as store operations: `np.array(spine)`/`cvtColor` allocate a fresh
working copy, the overlay writes only into its fresh result, and the output
conversion allocates again; no write ever targets a pre-existing id. -/
noncomputable def shadowSpineStep (s : Store) (spineId shId : ℕ) : Store × ℕ :=
  ((freshId (overlayShadowOp ((freshId s, bgr2rgb (getImg s spineId)) :: s)
      (freshId s) shId).1,
    bgr2rgb (getImg (overlayShadowOp ((freshId s, bgr2rgb (getImg s spineId)) :: s)
        (freshId s) shId).1
      (overlayShadowOp ((freshId s, bgr2rgb (getImg s spineId)) :: s)
        (freshId s) shId).2)) ::
    (overlayShadowOp ((freshId s, bgr2rgb (getImg s spineId)) :: s)
      (freshId s) shId).1,
   freshId (overlayShadowOp ((freshId s, bgr2rgb (getImg s spineId)) :: s)
     (freshId s) shId).1)

/-- The per-spine loop of `_apply_shadow_to_spines` over a list of spine
ids. -/
noncomputable def applyShadowOpStore (s : Store) (spineIds : List ℕ) (shId : ℕ) :
    Store :=
  match spineIds with
  | [] => s
  | a :: rest => applyShadowOpStore (shadowSpineStep s a shId).1 rest shId

lemma lookup_lt_freshId : ∀ (s : Store) (j : ℕ),
    (lookupStore s j).isSome → j < freshId s := by
  intro s
  induction s with
  | nil => intro j h; simp [lookupStore] at h
  | cons p rest ih =>
    intro j h
    by_cases hj : p.1 = j
    · subst hj
      show p.1 < max (p.1 + 1) (freshId rest)
      omega
    · have : (lookupStore rest j).isSome := by
        simpa [lookupStore, hj] using h
      have := ih j this
      show j < max (p.1 + 1) (freshId rest)
      omega

lemma lookup_update_ne {s : Store} {i r : ℕ} (h : i ≠ r) (v : Img) :
    lookupStore (updateStore s r v) i = lookupStore s i := by
  induction s with
  | nil => rfl
  | cons p rest ih =>
    show lookupStore ((if p.1 = r then (r, v) else p) :: updateStore rest r v) i = _
    by_cases hp : p.1 = r
    · rw [if_pos hp]
      show (if r = i then some v else lookupStore (updateStore rest r v) i) = _
      rw [if_neg (fun hri => h hri.symm), ih]
      show _ = (if p.1 = i then some p.2 else lookupStore rest i)
      rw [if_neg (by rw [hp]; exact fun hri => h hri.symm)]
    · rw [if_neg hp]
      show (if p.1 = i then some p.2 else lookupStore (updateStore rest r v) i) = _
      by_cases hpi : p.1 = i
      · rw [if_pos hpi]
        exact (if_pos hpi).symm
      · rw [if_neg hpi, ih]
        exact (if_neg hpi).symm

lemma lookup_cons_ne {s : Store} {i r : ℕ} (h : i ≠ r) (v : Img) :
    lookupStore ((r, v) :: s) i = lookupStore s i := by
  show (if r = i then some v else lookupStore s i) = _
  rw [if_neg (fun hri => h hri.symm)]

lemma lookup_writeChannel_ne {s : Store} {i r : ℕ} (h : i ≠ r) (c : ℕ)
    (f : ℕ → ℕ → ℝ) :
    lookupStore (writeChannel s r c f) i = lookupStore s i :=
  lookup_update_ne h _

lemma overlayShadowOp_frame (s : Store) (origId shId i : ℕ)
    (h : (lookupStore s i).isSome) :
    lookupStore (overlayShadowOp s origId shId).1 i = lookupStore s i := by
  have hne : i ≠ freshId s := Nat.ne_of_lt (lookup_lt_freshId s i h)
  unfold overlayShadowOp
  by_cases hc : (resizeLinear (getImg s shId) (getImg s origId).width
      (getImg s origId).height).channels = 4
  · rw [if_pos hc]
    show lookupStore (writeChannel (writeChannel (writeChannel _ _ 0 _) _ 1 _) _ 2 _) i = _
    rw [lookup_writeChannel_ne hne, lookup_writeChannel_ne hne,
      lookup_writeChannel_ne hne, lookup_cons_ne hne]
  · rw [if_neg hc]
    exact lookup_cons_ne hne _

lemma overlayShadowOp_frame_isSome (s : Store) (origId shId i : ℕ)
    (h : (lookupStore s i).isSome) :
    (lookupStore (overlayShadowOp s origId shId).1 i).isSome := by
  rw [overlayShadowOp_frame s origId shId i h]
  exact h

lemma shadowSpineStep_frame (s : Store) (spineId shId i : ℕ)
    (h : (lookupStore s i).isSome) :
    lookupStore (shadowSpineStep s spineId shId).1 i = lookupStore s i := by
  have hne : i ≠ freshId s := Nat.ne_of_lt (lookup_lt_freshId s i h)
  have h1 : lookupStore ((freshId s, bgr2rgb (getImg s spineId)) :: s) i =
      lookupStore s i := lookup_cons_ne hne _
  have h1s : (lookupStore ((freshId s, bgr2rgb (getImg s spineId)) :: s) i).isSome := by
    rw [h1]; exact h
  have h2 := overlayShadowOp_frame ((freshId s, bgr2rgb (getImg s spineId)) :: s)
    (freshId s) shId i h1s
  have h2s : (lookupStore (overlayShadowOp
      ((freshId s, bgr2rgb (getImg s spineId)) :: s) (freshId s) shId).1 i).isSome := by
    rw [h2]; exact h1s
  have hne2 : i ≠ freshId (overlayShadowOp
      ((freshId s, bgr2rgb (getImg s spineId)) :: s) (freshId s) shId).1 :=
    Nat.ne_of_lt (lookup_lt_freshId _ i h2s)
  show lookupStore (_ :: _) i = _
  rw [lookup_cons_ne hne2, h2, h1]

/-- C9: the shadow-overlay step never mutates its input arrays — every
pre-existing array id holds the same image after `_overlay_shadow` (which
writes only into the freshly allocated result copy) and after the whole
per-spine shadow loop, so a caller holding the originals (e.g. for preview)
still sees the original pixel values. -/
theorem shadow_preserves_input_arrays (s : Store) (origId shId i : ℕ)
    (h : (lookupStore s i).isSome) :
    lookupStore (overlayShadowOp s origId shId).1 i = lookupStore s i ∧
    ∀ spineIds, lookupStore (applyShadowOpStore s spineIds shId) i = lookupStore s i := by
  refine ⟨overlayShadowOp_frame s origId shId i h, ?_⟩
  intro spineIds
  induction spineIds generalizing s with
  | nil => rfl
  | cons a rest ih =>
    show lookupStore (applyShadowOpStore (shadowSpineStep s a shId).1 rest shId) i = _
    have hstep := shadowSpineStep_frame s a shId i h
    have hsome : (lookupStore (shadowSpineStep s a shId).1 i).isSome := by
      rw [hstep]; exact h
    rw [ih _ hsome, hstep]

/-- C9 witness: a one-array store is untouched by an overlay targeting it. -/
theorem shadow_preserves_input_arrays_witness :
    lookupStore (overlayShadowOp [(0, demoImg)] 0 0).1 0 =
      lookupStore [(0, demoImg)] 0 :=
  (shadow_preserves_input_arrays [(0, demoImg)] 0 0 0 rfl).1

end Cover3d
